import Mathlib

/-!
Binding reconciler of the Valkey operator.

A shallow embedding of `reconcileBinding` (`pkg/operator/binding.go`) and of the
part of the `Valkey` resource it reads (`api/v1alpha1/types.go`).

Conventions of the embedding:

* a Go `map[string]T` is an `AList` keyed by `String` (pairwise distinct keys);
  `range` over a map visits its entries in list order, which is one of the
  orders Go may choose;
* a Go `string` and a Go `[]byte` are both carried by `String` (texts in UTF-8); the
  conversions `string(b)` and `[]byte(s)` copy the same byte sequence and are the
  identity;
* a nil pointer is `none`;
* the Go return value `error` is `Option Error` (`none` is `nil`);
* the store client and the template, YAML and JSON libraries are parameters
  (`Client`, `Engine`); every call to the store client is recorded in the `Run`
  that `reconcileBinding` returns;
* the function library registered on the template (`sprig.TxtFuncMap()`) holds
  functions that read the clock and the random source (`now`, `uuidv4`, `randAlphaNum`),
  so executing a template also takes what those functions read at the time of the
  call: the ambient value `ω`, an argument of `Execute` and of `reconcileBinding`.
-/

namespace ValkeyBinding

/-! ## Data model -/

/-- Go `map[string]T`. -/
abbrev GoMap (β : Type) := AList (fun _ : String => β)

/-- Go `[]byte`; same carrier as `string`. -/
abbrev Bytes := String

/-- Errors surfaced by the collaborators of `reconcileBinding`. -/
inductive Error where
  | notFound (Namespace Name : String)
  | conflict
  | other (msg : String)
  deriving DecidableEq

/-- The type `SentinelProperties` (types.go 41-44); the inlined container properties are
not read. -/
structure SentinelProperties where
  Enabled : Bool
  deriving DecidableEq

/-- The type `ObjectReference` (types.go 83-87). -/
structure ObjectReference where
  Group : String
  Kind : String
  Name : String
  deriving DecidableEq

/-- The type `CertManagerProperties` (types.go 78-80). -/
structure CertManagerProperties where
  Issuer : Option ObjectReference
  deriving DecidableEq

/-- The type `TLSProperties` (types.go 72-75). -/
structure TLSProperties where
  Enabled : Bool
  CertManager : Option CertManagerProperties
  deriving DecidableEq

/-- The type `BindingProperties` (types.go 98-101). -/
structure BindingProperties where
  SecretName : String
  Template : Option String
  deriving DecidableEq

/-- The type `ValkeySpec` (types.go 20-38), restricted to the fields `reconcileBinding`
reads. -/
structure ValkeySpec where
  Sentinel : Option SentinelProperties
  TLS : Option TLSProperties
  Binding : Option BindingProperties
  ClusterDomain : String
  deriving DecidableEq

/-- The type `Valkey` (types.go 115-122): object name, namespace and spec. -/
structure Valkey where
  Name : String
  Namespace : String
  Spec : ValkeySpec
  deriving DecidableEq

/-- The type `types.NamespacedName`. -/
structure NamespacedName where
  Namespace : String
  Name : String
  deriving DecidableEq

/-- The type `corev1.Secret`: identity, some metadata that an update carries along, and
`Data`. -/
structure Secret where
  Namespace : String
  Name : String
  ResourceVersion : String
  Labels : GoMap String
  Data : GoMap Bytes

/-- Key under which a secret is stored. -/
def Secret.key (o : Secret) : NamespacedName := ⟨o.Namespace, o.Name⟩

/-- Values of the template parameter map `map[string]any`: `reconcileBinding` stores
strings, ints and booleans in it. -/
inductive ParamValue where
  | str (s : String)
  | int (n : Int)
  | bool (b : Bool)
  deriving DecidableEq

/-- The template parameters, `params` in the source. -/
abbrev Params := GoMap ParamValue

/-- A Go `any` as produced by unmarshalling YAML into `map[string]any`: a string, a
number (a finite `float64`, kept as the rational it denotes), a boolean, nil, a list,
or a nested mapping. -/
inductive Value where
  | null
  | bool (b : Bool)
  | num (q : ℚ)
  | str (s : String)
  | list (xs : List Value)
  | map (kvs : List (String × Value))

/-- The rendered document, `bindingData` in the source. -/
abbrev Document := GoMap Value

/-- The store client (`client.Client`) as far as `reconcileBinding` uses it, over a
store state `σ`. `Get` reads; `Update` returns the store it leaves and its error. -/
structure Client (σ : Type) where
  Get : σ → NamespacedName → Except Error Secret
  Update : σ → Secret → σ × Option Error

/-- The libraries `reconcileBinding` calls, over a type `τ` of parsed templates and a
type `ω` of ambient values. `Parse` is
`template.New("binding.yaml").Option("missingkey=zero").Funcs(sprig.TxtFuncMap()).Parse`,
`ParseFS` the same template parsing the embedded asset `data/binding.yaml`,
`Execute` is `t.Execute` returning the buffer, `Unmarshal` is `kyaml.Unmarshal` into a
`map[string]any`, `Marshal` is `json.Marshal`. `Execute` runs the functions of
`sprig.TxtFuncMap()` that the template calls, so besides the template and the
parameters it takes the ambient value: what the clock and the random source give at
the time of the call. -/
structure Engine (τ ω : Type) where
  Parse : String → Except Error τ
  ParseFS : Except Error τ
  Execute : τ → Params → ω → Except Error String
  Unmarshal : String → Except Error Document
  Marshal : Value → Except Error Bytes

/-- What one call of `reconcileBinding` did: the returned error, the store it leaves,
and the keys of its `Get` calls and the objects of its `Update` calls, in call order. -/
structure Run (σ : Type) where
  err : Option Error
  store : σ
  gets : List NamespacedName
  updates : List Secret

/-! ## `reconcileBinding` -/

/-- Lines 27-30: the cluster domain, `"cluster.local"` when the spec leaves it empty. -/
def clusterDomain (valkey : Valkey) : String :=
  if valkey.Spec.ClusterDomain = "" then "cluster.local" else valkey.Spec.ClusterDomain

/-- Line 32: `valkey.Spec.Sentinel != nil && valkey.Spec.Sentinel.Enabled`. -/
def sentinelEnabled (valkey : Valkey) : Bool :=
  match valkey.Spec.Sentinel with
  | some sentinel => sentinel.Enabled
  | none => false

/-- Line 53: `valkey.Spec.TLS != nil && valkey.Spec.TLS.Enabled`. -/
def tlsEnabled (valkey : Valkey) : Bool :=
  match valkey.Spec.TLS with
  | some tls => tls.Enabled
  | none => false

/-- Lines 24-44: the parameters derived from the topology. -/
def topologyParams (valkey : Valkey) : Params :=
  let params : Params := ∅
  if sentinelEnabled valkey then
    let params := params.insert "sentinelEnabled" (.bool true)
    let params := params.insert "host"
      (.str ("valkey-" ++ valkey.Name ++ "." ++ valkey.Namespace ++ ".svc."
        ++ clusterDomain valkey))
    let params := params.insert "port" (.int 6379)
    let params := params.insert "sentinelHost"
      (.str ("valkey-" ++ valkey.Name ++ "." ++ valkey.Namespace ++ ".svc."
        ++ clusterDomain valkey))
    let params := params.insert "sentinelPort" (.int 26379)
    params.insert "primaryName" (.str "myprimary")
  else
    let params := params.insert "primaryHost"
      (.str ("valkey-" ++ valkey.Name ++ "-primary." ++ valkey.Namespace ++ ".svc."
        ++ clusterDomain valkey))
    let params := params.insert "primaryPort" (.int 6379)
    let params := params.insert "replicaHost"
      (.str ("valkey-" ++ valkey.Name ++ "-replicas." ++ valkey.Namespace ++ ".svc."
        ++ clusterDomain valkey))
    params.insert "replicaPort" (.int 6379)

/-- Line 47: name of the secret holding the password. -/
def authSecretName (valkey : Valkey) : String := "valkey-" ++ valkey.Name

/-- Lines 56-61: name of the secret holding the TLS material; the branch is on
`valkey.Spec.TLS.CertManager == nil`. With no TLS block the name stays `""`. -/
def tlsSecretName (valkey : Valkey) : String :=
  match valkey.Spec.TLS with
  | none => ""
  | some tls =>
    match tls.CertManager with
    | none => "valkey-" ++ valkey.Name ++ "-crt"
    | some _ => "valkey-" ++ valkey.Name ++ "-tls"

/-- Lines 89-94: name of the secret that receives the binding. -/
def bindingSecretName (valkey : Valkey) : String :=
  match valkey.Spec.Binding with
  | some binding =>
    if binding.SecretName ≠ "" then binding.SecretName
    else "valkey-" ++ valkey.Name ++ "-binding"
  | none => "valkey-" ++ valkey.Name ++ "-binding"

/-- The key of the `Get` for the password secret (line 48). -/
def authKey (valkey : Valkey) : NamespacedName := ⟨valkey.Namespace, authSecretName valkey⟩

/-- The key of the `Get` for the TLS secret (line 62). -/
def tlsKey (valkey : Valkey) : NamespacedName := ⟨valkey.Namespace, tlsSecretName valkey⟩

/-- The key of the `Get` for the target secret (line 95). -/
def bindingKey (valkey : Valkey) : NamespacedName := ⟨valkey.Namespace, bindingSecretName valkey⟩

/-- Go map index `m[key]` on a `map[string][]byte`, converted with `string(...)`:
the empty string when the key is absent. -/
def field (data : GoMap Bytes) (key : String) : String := (data.lookup key).getD ""

/-- Lines 24-66: the parameters handed to the template, with the keys of the `Get`
calls made to obtain them. An error of a `Get` is returned as it is. -/
def credentialParams {σ : Type} (client : Client σ) (valkey : Valkey) (s : σ) :
    Except Error Params × List NamespacedName :=
  let params := topologyParams valkey
  match client.Get s (authKey valkey) with
  | .error err => (.error err, [authKey valkey])
  | .ok authSecret =>
    let params := params.insert "password" (.str (field authSecret.Data "valkey-password"))
    if tlsEnabled valkey then
      let params := params.insert "tlsEnabled" (.bool true)
      match client.Get s (tlsKey valkey) with
      | .error err => (.error err, [authKey valkey, tlsKey valkey])
      | .ok tlsSecret =>
        (.ok (params.insert "caData" (.str (field tlsSecret.Data "ca.crt"))),
          [authKey valkey, tlsKey valkey])
    else
      (.ok params, [authKey valkey])

/-- Lines 70-78: the custom template when `binding.template` is set, the embedded
default otherwise. -/
def parseTemplate {τ ω : Type} (env : Engine τ ω) (valkey : Valkey) : Except Error τ :=
  match valkey.Spec.Binding with
  | some binding =>
    match binding.Template with
    | some text => env.Parse text
    | none => env.ParseFS
  | none => env.ParseFS

/-- Lines 68-86: parse the template, execute it on the parameters (under the ambient
value of the call), parse the output. -/
def renderDocument {τ ω : Type} (env : Engine τ ω) (valkey : Valkey) (params : Params)
    (ambient : ω) : Except Error Document :=
  match parseTemplate env valkey with
  | .error err => .error err
  | .ok t =>
    match env.Execute t params ambient with
    | .error err => .error err
    | .ok buf => env.Unmarshal buf

/-- Lines 100-108, the body of the loop: a string is stored as its bytes, any other
value as the bytes `json.Marshal` returns for it. -/
def encodeValue {τ ω : Type} (env : Engine τ ω) (value : Value) : Except Error Bytes :=
  match value with
  | .str stringValue => .ok stringValue
  | value => env.Marshal value

/-- Lines 99-109, the loop over the entries of `bindingData`; the first `Marshal`
error ends it. -/
def encodeEntries {τ ω : Type} (env : Engine τ ω) :
    List (Sigma fun _ : String => Value) → GoMap Bytes → Except Error (GoMap Bytes)
  | [], data => .ok data
  | ⟨key, value⟩ :: rest, data =>
    match encodeValue env value with
    | .error err => .error err
    | .ok rawValue => encodeEntries env rest (data.insert key rawValue)

/-- Lines 98-109: the payload, built from an empty map. -/
def encodePayload {τ ω : Type} (env : Engine τ ω) (bindingData : Document) :
    Except Error (GoMap Bytes) :=
  encodeEntries env bindingData.entries ∅

/-- The function `reconcileBinding` (binding.go 23-116), run on the store `s` at a time
when the clock and the random source give `ambient`. -/
def reconcileBinding {σ τ ω : Type} (env : Engine τ ω) (client : Client σ) (valkey : Valkey)
    (s : σ) (ambient : ω) : Run σ :=
  match credentialParams client valkey s with
  | (.error err, gets) => ⟨some err, s, gets, []⟩
  | (.ok params, gets) =>
    match renderDocument env valkey params ambient with
    | .error err => ⟨some err, s, gets, []⟩
    | .ok bindingData =>
      match client.Get s (bindingKey valkey) with
      | .error err => ⟨some err, s, gets ++ [bindingKey valkey], []⟩
      | .ok bindingSecret =>
        match encodePayload env bindingData with
        | .error err => ⟨some err, s, gets ++ [bindingKey valkey], []⟩
        | .ok data =>
          let bindingSecret : Secret := { bindingSecret with Data := data }
          ⟨(client.Update s bindingSecret).2, (client.Update s bindingSecret).1,
            gets ++ [bindingKey valkey], [bindingSecret]⟩

/-! ## Doubles for the collaborators

Concrete stand-ins for the store client and for the libraries, on which the
development runs `reconcileBinding` at explicit inputs. -/

/-- Modelled from the spec: the store behind the store client, a list of secrets. -/
abbrev MemStore := List Secret

/-- Modelled from the spec: `get(namespace, name)` of the store client contract; it
returns the first stored object under the key and fails NotFound when there is none. -/
def memGet (s : MemStore) (key : NamespacedName) : Except Error Secret :=
  match s.find? (fun o => decide (o.key = key)) with
  | some o => .ok o
  | none => .error (.notFound key.Namespace key.Name)

/-- Replace the first stored object that has the key of `o` by `o`. -/
def memReplace : MemStore → Secret → MemStore
  | [], _ => []
  | x :: xs, o => if x.key = o.key then o :: xs else x :: memReplace xs o

/-- Modelled from the spec: `update(object)` of the store client contract; it replaces
the stored object of the same key and fails NotFound, changing nothing, when there is
none. -/
def memUpdate (s : MemStore) (o : Secret) : MemStore × Option Error :=
  match s.find? (fun x => decide (x.key = o.key)) with
  | some _ => (memReplace s o, none)
  | none => (s, some (.notFound o.Namespace o.Name))

/-- Modelled from the spec: the in-memory store client. -/
def memClient : Client MemStore := ⟨memGet, memUpdate⟩

/-- Modelled from the spec: the store client contract as laws of a `Client`. A `Get`
returns an object of the requested key; an `Update` leaves the objects under other keys
as they were; after an `Update` without error a `Get` of the key returns an object
with the written data; an `Update` that writes back the stored object succeeds and
leaves the store as it was. -/
structure Lawful {σ : Type} (client : Client σ) : Prop where
  get_key : ∀ (s : σ) (key : NamespacedName) (o : Secret),
    client.Get s key = .ok o → o.key = key
  update_frame : ∀ (s : σ) (o : Secret) (key : NamespacedName),
    key ≠ o.key → client.Get (client.Update s o).1 key = client.Get s key
  update_get : ∀ (s : σ) (o : Secret), (client.Update s o).2 = none →
    ∃ stored, client.Get (client.Update s o).1 o.key = .ok stored ∧ stored.Data = o.Data
  update_same : ∀ (s : σ) (o : Secret),
    client.Get s o.key = .ok o → client.Update s o = (s, none)

/-- Characters that `encoding/json` copies unchanged between the quotes of a string:
no control character, quote, backslash, angle bracket, ampersand, DEL, U+2028 or
U+2029. -/
def plainChar (c : Char) : Bool :=
  decide (32 ≤ c.toNat) && decide (c.toNat ≠ 34) && decide (c.toNat ≠ 92)
    && decide (c.toNat ≠ 60) && decide (c.toNat ≠ 62) && decide (c.toNat ≠ 38)
    && decide (c.toNat ≠ 127) && decide (c.toNat ≠ 8232) && decide (c.toNat ≠ 8233)

/-- Reference JSON text of a string made of plain characters: the string between
quotes. Other strings are outside the reference fragment. -/
def jsonString (s : String) : Except Error String :=
  if s.data.all plainChar then .ok ("\x22" ++ s ++ "\x22")
  else .error (.other "json: string outside the reference fragment")

/-- Reference JSON text of an integral number below `2^53` in magnitude: its decimal
digits. Every such number is a `float64`, and its shortest decimal text that reads
back as the same `float64` is this one. Other numbers are outside the reference
fragment. -/
def jsonNumber (q : ℚ) : Except Error String :=
  if q.den = 1 ∧ q.num.natAbs < 2 ^ 53 then .ok (toString q.num)
  else .error (.other "json: number outside the reference fragment")

/-- Lexicographic order on texts, character code by character code (the byte order of
their UTF-8 encodings). -/
def textLt : List Char → List Char → Bool
  | _, [] => false
  | [], _ :: _ => true
  | a :: as, b :: bs => decide (a.toNat < b.toNat) || (decide (a.toNat = b.toNat) && textLt as bs)

/-- Insert a member, given as its key and its JSON text, into a list of members ordered
by key. -/
def insertMember (m : String × String) : List (String × String) → List (String × String)
  | [] => [m]
  | x :: xs => if textLt m.1.data x.1.data then m :: x :: xs else x :: insertMember m xs

/-- Join texts with commas. -/
def commaJoin : List String → String
  | [] => ""
  | [x] => x
  | x :: y :: rest => x ++ "," ++ commaJoin (y :: rest)

mutual
/-- Modelled from the spec: the JSON encoding of `encoding/json`, on the fragment of
values built from null, booleans, integral numbers below `2^53`, strings of plain
characters, lists, and mappings that list each key once (members in the order of their
keys). Outside the fragment this reference encoder reports an error of its own. -/
def jsonMarshal : Value → Except Error Bytes
  | .null => .ok "null"
  | .bool true => .ok "true"
  | .bool false => .ok "false"
  | .num q => jsonNumber q
  | .str s => jsonString s
  | .list xs =>
    match jsonItems xs with
    | .ok items => .ok ("[" ++ commaJoin items ++ "]")
    | .error err => .error err
  | .map kvs =>
    match jsonMembers kvs with
    | .ok members => .ok ("\x7b" ++ commaJoin (members.map fun m => m.2) ++ "\x7d")
    | .error err => .error err
/-- The encodings of the items of a list. -/
def jsonItems : List Value → Except Error (List String)
  | [] => .ok []
  | x :: rest =>
    match jsonMarshal x, jsonItems rest with
    | .ok a, .ok b => .ok (a :: b)
    | .error err, _ => .error err
    | _, .error err => .error err
/-- The members of a mapping, each as its key and its JSON text (quoted key, colon,
encoded value), ordered by key. -/
def jsonMembers : List (String × Value) → Except Error (List (String × String))
  | [] => .ok []
  | (k, v) :: rest =>
    match jsonString k, jsonMarshal v, jsonMembers rest with
    | .ok a, .ok b, .ok c =>
      if c.any (fun m => decide (m.1 = k)) then
        .error (.other "json: mapping outside the reference fragment")
      else .ok (insertMember (k, a ++ ":" ++ b) c)
    | .error err, _, _ => .error err
    | _, .error err, _ => .error err
    | _, _, .error err => .error err
end

/-- The custom template text that renders the clock: the action `now | unixEpoch` of
the function library between the action delimiters. -/
def clockTemplate : String := "\x7b\x7b now | unixEpoch \x7d\x7d"

/-- Modelled from the spec: a small stand-in for the template and YAML libraries. A
parsed template is its text; the custom template that consists of an opening action
delimiter alone is rejected (unclosed action); the ambient value is the reading of the
clock, as the decimal text of its seconds; executing `clockTemplate` renders that
reading, executing any other template renders the password parameter; the rendered
text parses to the document with the string entry `password` (the rendered text) and
the number entry `count` (3). -/
def demoEngine : Engine String String where
  Parse := fun text =>
    if text = "\x7b\x7b" then .error (.other "template: unclosed action") else .ok text
  ParseFS := .ok "binding.yaml"
  Execute := fun t params clock =>
    if t = clockTemplate then .ok clock
    else
      match params.lookup "password" with
      | some (.str s) => .ok s
      | _ => .ok ""
  Unmarshal := fun buf =>
    .ok ((∅ : Document).insert "count" (.num 3) |>.insert "password" (.str buf))
  Marshal := jsonMarshal

/-- Modelled from the spec: `update(object)` on a store that stamps every written
object with a new resource version, as a store with optimistic concurrency control
may. -/
def stampUpdate (s : MemStore) (o : Secret) : MemStore × Option Error :=
  memUpdate s { o with ResourceVersion := o.ResourceVersion ++ "+" }

/-- Modelled from the spec: the in-memory store client that stamps resource versions. -/
def stampClient : Client MemStore := ⟨memGet, stampUpdate⟩

/-! ## Concrete inputs -/

/-- A secret with the given identity and data entries. -/
def mkSecret (ns name : String) (data : List (String × String)) : Secret :=
  ⟨ns, name, "1", ∅, data.foldr (fun kv m => m.insert kv.1 kv.2) ∅⟩

/-- The deployment `cache1` in `ns1`: no sentinel, no TLS, no binding override, cluster
domain unset. -/
def cache1 : Valkey := ⟨"cache1", "ns1", ⟨none, none, none, ""⟩⟩

/-- The deployment `cache1` with sentinel enabled. -/
def cache1Sentinel : Valkey := ⟨"cache1", "ns1", ⟨some ⟨true⟩, none, none, ""⟩⟩

/-- The deployment `cache1` with TLS enabled and no `certManager` block. -/
def cache1SelfSigned : Valkey := ⟨"cache1", "ns1", ⟨none, some ⟨true, none⟩, none, ""⟩⟩

/-- The deployment `cache1` with TLS enabled and a `certManager` block that carries no
issuer. -/
def cache1CertManager : Valkey :=
  ⟨"cache1", "ns1", ⟨none, some ⟨true, some ⟨none⟩⟩, none, ""⟩⟩

/-- The deployment `cache1` with a custom template that does not parse: an opening
action delimiter that is never closed. -/
def cache1Unclosed : Valkey :=
  ⟨"cache1", "ns1", ⟨none, none, some ⟨"", some "\x7b\x7b"⟩, ""⟩⟩

/-- The deployment `cache1` with the binding secret name overridden. -/
def cache1Named : Valkey :=
  ⟨"cache1", "ns1", ⟨none, none, some ⟨"app-binding", none⟩, ""⟩⟩

/-- A store with the password secret of `cache1`, both candidate TLS secrets (the
self-signed one with an empty `ca.crt`), the default binding secret holding stale data,
and a secret of another deployment. -/
def store1 : MemStore :=
  [mkSecret "ns1" "valkey-cache1" [("valkey-password", "abc")],
   mkSecret "ns1" "valkey-cache1-crt" [("ca.crt", "")],
   mkSecret "ns1" "valkey-cache1-tls" [("ca.crt", "PEM")],
   mkSecret "ns1" "valkey-cache1-binding" [("stale", "x")],
   mkSecret "ns1" "valkey-other" [("valkey-password", "zzz")]]

/-- The deployment `cache1` with the custom template `clockTemplate`. -/
def cache1Clock : Valkey :=
  ⟨"cache1", "ns1", ⟨none, none, some ⟨"", some clockTemplate⟩, ""⟩⟩

/-- The document of the encoding scenario: `password` is the string `abc`, `count` the
number 3. -/
def scenarioDoc : Document :=
  ((∅ : Document).insert "count" (.num 3)).insert "password" (.str "abc")

/-! ## Parameter lemmas -/

theorem credentialParams_ok {σ : Type} (client : Client σ) (valkey : Valkey) (s : σ)
    (params : Params) (h : (credentialParams client valkey s).1 = .ok params) :
    ∃ authSecret, client.Get s (authKey valkey) = .ok authSecret ∧
      ((tlsEnabled valkey = false ∧
          params = (topologyParams valkey).insert "password"
            (.str (field authSecret.Data "valkey-password")) ∧
          (credentialParams client valkey s).2 = [authKey valkey]) ∨
       (tlsEnabled valkey = true ∧ ∃ tlsSecret, client.Get s (tlsKey valkey) = .ok tlsSecret ∧
          params = (((topologyParams valkey).insert "password"
            (.str (field authSecret.Data "valkey-password"))).insert "tlsEnabled"
              (.bool true)).insert "caData" (.str (field tlsSecret.Data "ca.crt")) ∧
          (credentialParams client valkey s).2 = [authKey valkey, tlsKey valkey])) := by
  unfold credentialParams at h ⊢
  cases hauth : client.Get s (authKey valkey) with
  | error err => simp [hauth] at h
  | ok authSecret =>
    refine ⟨authSecret, rfl, ?_⟩
    cases htls : tlsEnabled valkey with
    | false =>
      left
      simp [hauth, htls] at h ⊢
      exact h.symm
    | true =>
      right
      cases hget : client.Get s (tlsKey valkey) with
      | error err => simp [hauth, htls, hget] at h
      | ok tlsSecret =>
        simp [hauth, htls, hget] at h ⊢
        exact h.symm

theorem credentialParams_lookup {σ : Type} (client : Client σ) (valkey : Valkey) (s : σ)
    (params : Params) (h : (credentialParams client valkey s).1 = .ok params) (key : String)
    (h1 : key ≠ "password") (h2 : key ≠ "tlsEnabled") (h3 : key ≠ "caData") :
    params.lookup key = (topologyParams valkey).lookup key := by
  obtain ⟨authSecret, -, h | h⟩ := credentialParams_ok client valkey s params h
  · obtain ⟨-, rfl, -⟩ := h
    rw [AList.lookup_insert_ne h1]
  · obtain ⟨-, tlsSecret, -, rfl, -⟩ := h
    rw [AList.lookup_insert_ne h3, AList.lookup_insert_ne h2, AList.lookup_insert_ne h1]

theorem topologyParams_sentinel (valkey : Valkey) (h : sentinelEnabled valkey = true) :
    topologyParams valkey =
      ((((((∅ : Params).insert "sentinelEnabled" (.bool true)).insert "host"
        (.str ("valkey-" ++ valkey.Name ++ "." ++ valkey.Namespace ++ ".svc."
          ++ clusterDomain valkey))).insert "port" (.int 6379)).insert "sentinelHost"
        (.str ("valkey-" ++ valkey.Name ++ "." ++ valkey.Namespace ++ ".svc."
          ++ clusterDomain valkey))).insert "sentinelPort" (.int 26379)).insert
        "primaryName" (.str "myprimary") := by
  simp [topologyParams, h]

theorem topologyParams_primary (valkey : Valkey) (h : sentinelEnabled valkey = false) :
    topologyParams valkey =
      ((((∅ : Params).insert "primaryHost"
        (.str ("valkey-" ++ valkey.Name ++ "-primary." ++ valkey.Namespace ++ ".svc."
          ++ clusterDomain valkey))).insert "primaryPort" (.int 6379)).insert "replicaHost"
        (.str ("valkey-" ++ valkey.Name ++ "-replicas." ++ valkey.Namespace ++ ".svc."
          ++ clusterDomain valkey))).insert "replicaPort" (.int 6379) := by
  simp [topologyParams, h]


theorem params_frame {σ : Type} (client : Client σ) (valkey : Valkey) (s : σ)
    (params : Params)
    (hparams : params = topologyParams valkey ∨
      (credentialParams client valkey s).1 = .ok params)
    (key : String) (h1 : key ≠ "password") (h2 : key ≠ "tlsEnabled") (h3 : key ≠ "caData") :
    params.lookup key = (topologyParams valkey).lookup key := by
  rcases hparams with rfl | h
  · rfl
  · exact credentialParams_lookup client valkey s params h key h1 h2 h3

/-! ## Topology parameters -/

/-- C4: at either point where the parameter map exists (after the topology stage, or
after the credential and TLS stage has succeeded) exactly one parameter group is
populated. Sentinel mode is a sentinel block that is present and enabled; then the map
has sentinelEnabled = true and neither primaryHost nor replicaHost. In every other case
it has primaryHost and replicaHost and no sentinelEnabled. The credential and TLS stage
leaves every key other than password, tlsEnabled and caData as the topology stage set
it, so it adds or removes no key of either group. -/
theorem parameter_groups_exclusive {σ : Type} (client : Client σ) (valkey : Valkey) (s : σ)
    (params : Params)
    (hparams : params = topologyParams valkey ∨
      (credentialParams client valkey s).1 = .ok params) :
    (sentinelEnabled valkey = true ↔
      ∃ sentinel, valkey.Spec.Sentinel = some sentinel ∧ sentinel.Enabled = true) ∧
    (if sentinelEnabled valkey = true then
      params.lookup "sentinelEnabled" = some (.bool true) ∧
        "primaryHost" ∉ params ∧ "replicaHost" ∉ params
    else
      "primaryHost" ∈ params ∧ "replicaHost" ∈ params ∧ "sentinelEnabled" ∉ params) ∧
    (∀ key, key ≠ "password" → key ≠ "tlsEnabled" → key ≠ "caData" →
      params.lookup key = (topologyParams valkey).lookup key) := by
  have hframe := params_frame client valkey s params hparams
  refine ⟨?_, ?_, hframe⟩
  · unfold sentinelEnabled
    cases valkey.Spec.Sentinel <;> simp
  · have e1 := hframe "sentinelEnabled" (by decide) (by decide) (by decide)
    have e2 := hframe "primaryHost" (by decide) (by decide) (by decide)
    have e3 := hframe "replicaHost" (by decide) (by decide) (by decide)
    cases hmode : sentinelEnabled valkey with
    | true =>
      rw [topologyParams_sentinel valkey hmode] at e1 e2 e3
      simp only [if_true]
      refine ⟨?_, ?_, ?_⟩
      · rw [e1]; simp [-AList.insert_empty, AList.lookup_insert, AList.lookup_insert_ne]
      · rw [← AList.lookup_eq_none, e2]
        simp [-AList.insert_empty, AList.lookup_insert_ne]
      · rw [← AList.lookup_eq_none, e3]
        simp [-AList.insert_empty, AList.lookup_insert_ne]
    | false =>
      rw [topologyParams_primary valkey hmode] at e1 e2 e3
      simp only [Bool.false_eq_true, if_false]
      refine ⟨?_, ?_, ?_⟩
      · rw [← AList.lookup_isSome, e2]
        simp [-AList.insert_empty, AList.lookup_insert, AList.lookup_insert_ne]
      · rw [← AList.lookup_isSome, e3]
        simp [-AList.insert_empty, AList.lookup_insert, AList.lookup_insert_ne]
      · rw [← AList.lookup_eq_none, e1]
        simp [-AList.insert_empty, AList.lookup_insert_ne]

/-- C5: in primary-replica mode (sentinel not enabled) the parameter map, after the
topology stage and after a successful credential and TLS stage alike, has
primaryHost = valkey-NAME-primary.NAMESPACE.svc.DOMAIN, primaryPort = 6379,
replicaHost = valkey-NAME-replicas.NAMESPACE.svc.DOMAIN and replicaPort = 6379, where
DOMAIN is the configured cluster domain, or cluster.local when that is empty. -/
theorem primary_replica_params {σ : Type} (client : Client σ) (valkey : Valkey) (s : σ)
    (params : Params) (hmode : sentinelEnabled valkey = false)
    (hparams : params = topologyParams valkey ∨
      (credentialParams client valkey s).1 = .ok params) :
    params.lookup "primaryHost" = some (.str ("valkey-" ++ valkey.Name ++ "-primary." ++
      valkey.Namespace ++ ".svc." ++
      (if valkey.Spec.ClusterDomain = "" then "cluster.local"
        else valkey.Spec.ClusterDomain))) ∧
    params.lookup "primaryPort" = some (.int 6379) ∧
    params.lookup "replicaHost" = some (.str ("valkey-" ++ valkey.Name ++ "-replicas." ++
      valkey.Namespace ++ ".svc." ++
      (if valkey.Spec.ClusterDomain = "" then "cluster.local"
        else valkey.Spec.ClusterDomain))) ∧
    params.lookup "replicaPort" = some (.int 6379) := by
  have hframe := params_frame client valkey s params hparams
  rw [hframe "primaryHost" (by decide) (by decide) (by decide),
    hframe "primaryPort" (by decide) (by decide) (by decide),
    hframe "replicaHost" (by decide) (by decide) (by decide),
    hframe "replicaPort" (by decide) (by decide) (by decide),
    topologyParams_primary valkey hmode]
  simp [-AList.insert_empty, AList.lookup_insert, AList.lookup_insert_ne, clusterDomain]

/-- C6: in sentinel mode the parameter map, after the topology stage and after a
successful credential and TLS stage alike, has sentinelEnabled = true, host and
sentinelHost both equal to valkey-NAME.NAMESPACE.svc.DOMAIN (so equal to each other),
port = 6379, sentinelPort = 26379 and primaryName = the literal myprimary, where DOMAIN
is the configured cluster domain, or cluster.local when that is empty. -/
theorem sentinel_params {σ : Type} (client : Client σ) (valkey : Valkey) (s : σ)
    (params : Params) (hmode : sentinelEnabled valkey = true)
    (hparams : params = topologyParams valkey ∨
      (credentialParams client valkey s).1 = .ok params) :
    params.lookup "sentinelEnabled" = some (.bool true) ∧
    params.lookup "host" = some (.str ("valkey-" ++ valkey.Name ++ "." ++
      valkey.Namespace ++ ".svc." ++
      (if valkey.Spec.ClusterDomain = "" then "cluster.local"
        else valkey.Spec.ClusterDomain))) ∧
    params.lookup "sentinelHost" = params.lookup "host" ∧
    params.lookup "port" = some (.int 6379) ∧
    params.lookup "sentinelPort" = some (.int 26379) ∧
    params.lookup "primaryName" = some (.str "myprimary") := by
  have hframe := params_frame client valkey s params hparams
  rw [hframe "sentinelEnabled" (by decide) (by decide) (by decide),
    hframe "host" (by decide) (by decide) (by decide),
    hframe "sentinelHost" (by decide) (by decide) (by decide),
    hframe "port" (by decide) (by decide) (by decide),
    hframe "sentinelPort" (by decide) (by decide) (by decide),
    hframe "primaryName" (by decide) (by decide) (by decide),
    topologyParams_sentinel valkey hmode]
  simp [-AList.insert_empty, AList.lookup_insert, AList.lookup_insert_ne, clusterDomain]

/-! ## Shape of a run -/

theorem run_of_cred_error {σ τ ω : Type} (env : Engine τ ω) (client : Client σ) (valkey : Valkey)
    (s : σ) (w : ω) (err : Error) (h : (credentialParams client valkey s).1 = .error err) :
    reconcileBinding env client valkey s w =
      ⟨some err, s, (credentialParams client valkey s).2, []⟩ := by
  unfold reconcileBinding
  rcases hc : credentialParams client valkey s with ⟨res, gets⟩
  rw [hc] at h
  simp only at h
  subst h
  rfl

theorem run_of_render_error {σ τ ω : Type} (env : Engine τ ω) (client : Client σ)
    (valkey : Valkey) (s : σ) (w : ω) (params : Params) (err : Error)
    (hp : (credentialParams client valkey s).1 = .ok params)
    (hr : renderDocument env valkey params w = .error err) :
    reconcileBinding env client valkey s w =
      ⟨some err, s, (credentialParams client valkey s).2, []⟩ := by
  unfold reconcileBinding
  rcases hc : credentialParams client valkey s with ⟨res, gets⟩
  rw [hc] at hp
  simp only at hp
  subst hp
  simp only [hr]

theorem run_of_get_error {σ τ ω : Type} (env : Engine τ ω) (client : Client σ)
    (valkey : Valkey) (s : σ) (w : ω) (params : Params) (doc : Document) (err : Error)
    (hp : (credentialParams client valkey s).1 = .ok params)
    (hr : renderDocument env valkey params w = .ok doc)
    (hg : client.Get s (bindingKey valkey) = .error err) :
    reconcileBinding env client valkey s w =
      ⟨some err, s, (credentialParams client valkey s).2 ++ [bindingKey valkey], []⟩ := by
  unfold reconcileBinding
  rcases hc : credentialParams client valkey s with ⟨res, gets⟩
  rw [hc] at hp
  simp only at hp
  subst hp
  simp only [hr, hg]

theorem run_of_encode_error {σ τ ω : Type} (env : Engine τ ω) (client : Client σ)
    (valkey : Valkey) (s : σ) (w : ω) (params : Params) (doc : Document) (target : Secret)
    (err : Error)
    (hp : (credentialParams client valkey s).1 = .ok params)
    (hr : renderDocument env valkey params w = .ok doc)
    (hg : client.Get s (bindingKey valkey) = .ok target)
    (he : encodePayload env doc = .error err) :
    reconcileBinding env client valkey s w =
      ⟨some err, s, (credentialParams client valkey s).2 ++ [bindingKey valkey], []⟩ := by
  unfold reconcileBinding
  rcases hc : credentialParams client valkey s with ⟨res, gets⟩
  rw [hc] at hp
  simp only at hp
  subst hp
  simp only [hr, hg, he]

theorem run_of_ok {σ τ ω : Type} (env : Engine τ ω) (client : Client σ)
    (valkey : Valkey) (s : σ) (w : ω) (params : Params) (doc : Document) (target : Secret)
    (payload : GoMap Bytes)
    (hp : (credentialParams client valkey s).1 = .ok params)
    (hr : renderDocument env valkey params w = .ok doc)
    (hg : client.Get s (bindingKey valkey) = .ok target)
    (he : encodePayload env doc = .ok payload) :
    reconcileBinding env client valkey s w =
      ⟨(client.Update s { target with Data := payload }).2,
        (client.Update s { target with Data := payload }).1,
        (credentialParams client valkey s).2 ++ [bindingKey valkey],
        [{ target with Data := payload }]⟩ := by
  unfold reconcileBinding
  rcases hc : credentialParams client valkey s with ⟨res, gets⟩
  rw [hc] at hp
  simp only at hp
  subst hp
  simp only [hr, hg, he]

theorem except_cases {ε α : Type} (x : Except ε α) :
    (∃ e, x = .error e) ∨ (∃ a, x = .ok a) := by
  cases x with
  | error e => exact Or.inl ⟨e, rfl⟩
  | ok a => exact Or.inr ⟨a, rfl⟩

/-- Every run either stops before the update, leaving the store and issuing no update,
or passes all four upstream stages and issues the one update. -/
theorem run_cases {σ τ ω : Type} (env : Engine τ ω) (client : Client σ) (valkey : Valkey)
    (s : σ) (w : ω) :
    (∃ err, (reconcileBinding env client valkey s w).err = some err ∧
      (reconcileBinding env client valkey s w).store = s ∧
      (reconcileBinding env client valkey s w).updates = [] ∧
      ((credentialParams client valkey s).1 = .error err ∨
       (∃ params, (credentialParams client valkey s).1 = .ok params ∧
          (renderDocument env valkey params w = .error err ∨
           ∃ doc, renderDocument env valkey params w = .ok doc ∧
            (client.Get s (bindingKey valkey) = .error err ∨
             ∃ target, client.Get s (bindingKey valkey) = .ok target ∧
              encodePayload env doc = .error err))))) ∨
    (∃ params doc target payload,
      (credentialParams client valkey s).1 = .ok params ∧
      renderDocument env valkey params w = .ok doc ∧
      client.Get s (bindingKey valkey) = .ok target ∧
      encodePayload env doc = .ok payload) := by
  rcases except_cases (credentialParams client valkey s).1 with ⟨err, hp⟩ | ⟨params, hp⟩
  · left
    refine ⟨err, ?_, ?_, ?_, Or.inl hp⟩ <;> rw [run_of_cred_error env client valkey s w err hp]
  · rcases except_cases (renderDocument env valkey params w) with ⟨err, hr⟩ | ⟨doc, hr⟩
    · left
      refine ⟨err, ?_, ?_, ?_, Or.inr ⟨params, hp, Or.inl hr⟩⟩ <;>
        rw [run_of_render_error env client valkey s w params err hp hr]
    · rcases except_cases (client.Get s (bindingKey valkey)) with ⟨err, hg⟩ | ⟨target, hg⟩
      · left
        refine ⟨err, ?_, ?_, ?_, Or.inr ⟨params, hp, Or.inr ⟨doc, hr, Or.inl hg⟩⟩⟩ <;>
          rw [run_of_get_error env client valkey s w params doc err hp hr hg]
      · rcases except_cases (encodePayload env doc) with ⟨err, he⟩ | ⟨payload, he⟩
        · left
          refine ⟨err, ?_, ?_, ?_,
            Or.inr ⟨params, hp, Or.inr ⟨doc, hr, Or.inr ⟨target, hg, he⟩⟩⟩⟩ <;>
            rw [run_of_encode_error env client valkey s w params doc target err hp hr hg he]
        · right
          exact ⟨params, doc, target, payload, hp, hr, hg, he⟩

/-! ## The payload encoder -/

theorem encodeEntries_lookup {τ ω : Type} (env : Engine τ ω) :
    ∀ (entries : List (Sigma fun _ : String => Value)) (data payload : GoMap Bytes),
      entries.NodupKeys → encodeEntries env entries data = .ok payload →
      ∀ key : String,
        (∀ value, List.dlookup key entries = some value →
          ∃ raw, encodeValue env value = .ok raw ∧ payload.lookup key = some raw) ∧
        (List.dlookup key entries = none → payload.lookup key = data.lookup key) := by
  intro entries
  induction entries with
  | nil =>
    intro data payload _ h key
    simp only [encodeEntries, Except.ok.injEq] at h
    subst h
    simp
  | cons e rest ih =>
    obtain ⟨k, v⟩ := e
    intro data payload hnd h key
    rw [List.nodupKeys_cons] at hnd
    obtain ⟨hk, hrest⟩ := hnd
    simp only [encodeEntries] at h
    cases hv : encodeValue env v with
    | error err => simp [hv] at h
    | ok raw =>
      simp only [hv] at h
      have hkrest : (List.dlookup k rest) = none := List.dlookup_eq_none.mpr hk
      by_cases hkey : key = k
      · subst hkey
        refine ⟨?_, ?_⟩
        · intro value hvalue
          rw [List.dlookup_cons_eq] at hvalue
          cases hvalue
          refine ⟨raw, hv, ?_⟩
          rw [(ih _ payload hrest h key).2 hkrest, AList.lookup_insert]
        · intro hnone
          rw [List.dlookup_cons_eq] at hnone
          cases hnone
      · have hne : key ≠ (⟨k, v⟩ : Sigma fun _ : String => Value).1 := hkey
        refine ⟨?_, ?_⟩
        · intro value hvalue
          rw [List.dlookup_cons_ne _ _ hne] at hvalue
          exact (ih _ payload hrest h key).1 value hvalue
        · intro hnone
          rw [List.dlookup_cons_ne _ _ hne] at hnone
          rw [(ih _ payload hrest h key).2 hnone, AList.lookup_insert_ne hkey]

theorem encodeEntries_ok {τ ω : Type} (env : Engine τ ω) :
    ∀ (entries : List (Sigma fun _ : String => Value)) (data : GoMap Bytes),
      (∀ e ∈ entries, ∃ raw, encodeValue env e.2 = .ok raw) →
      ∃ payload, encodeEntries env entries data = .ok payload := by
  intro entries
  induction entries with
  | nil => intro data _; exact ⟨data, rfl⟩
  | cons e rest ih =>
    obtain ⟨k, v⟩ := e
    intro data h
    obtain ⟨raw, hraw⟩ := h ⟨k, v⟩ (List.mem_cons_self _ _)
    obtain ⟨payload, hp⟩ := ih (data.insert k raw)
      (fun e he => h e (List.mem_cons_of_mem _ he))
    exact ⟨payload, by simp only [encodeEntries, hraw, hp]⟩

theorem encodeValue_str {τ ω : Type} (env : Engine τ ω) (s : String) :
    encodeValue env (.str s) = .ok s := rfl

theorem encodeValue_other {τ ω : Type} (env : Engine τ ω) (value : Value)
    (h : ∀ s, value ≠ .str s) : encodeValue env value = env.Marshal value := by
  cases value with
  | str s => exact absurd rfl (h s)
  | _ => rfl

/-- C2: when `json.Marshal` accepts every value of the document that is not a string,
the loop of `reconcileBinding` yields a payload; the payload has exactly the keys of
the document; under each key whose document value is a string it holds that string
unchanged (no JSON quoting), and under each other key (number, boolean, null, list,
nested mapping) it holds the bytes that `json.Marshal` returns for the value. -/
theorem encodePayload_spec {τ ω : Type} (env : Engine τ ω) (doc : Document)
    (hmarshal : ∀ key value, doc.lookup key = some value → (∀ s, value ≠ .str s) →
      ∃ raw, env.Marshal value = .ok raw) :
    ∃ payload, encodePayload env doc = .ok payload ∧
      (∀ key, key ∈ payload ↔ key ∈ doc) ∧
      (∀ key s, doc.lookup key = some (.str s) → payload.lookup key = some s) ∧
      (∀ key value, doc.lookup key = some value → (∀ s, value ≠ .str s) →
        ∃ raw, env.Marshal value = .ok raw ∧ payload.lookup key = some raw) := by
  have hall : ∀ e ∈ doc.entries, ∃ raw, encodeValue env e.2 = .ok raw := by
    rintro ⟨k, v⟩ he
    have hl : doc.lookup k = some v := AList.mem_lookup_iff.mpr he
    by_cases hs : ∃ s, v = .str s
    · obtain ⟨s, rfl⟩ := hs
      exact ⟨s, rfl⟩
    · have hs2 : ∀ s, v ≠ .str s := fun s h => hs ⟨s, h⟩
      obtain ⟨raw, hraw⟩ := hmarshal k v hl hs2
      exact ⟨raw, by rw [encodeValue_other env v hs2, hraw]⟩
  obtain ⟨payload, hp⟩ := encodeEntries_ok env doc.entries ∅ hall
  have hl := encodeEntries_lookup env doc.entries ∅ payload doc.nodupKeys hp
  refine ⟨payload, hp, ?_, ?_, ?_⟩
  · intro key
    rw [← AList.lookup_isSome, ← AList.lookup_isSome]
    cases hd : doc.lookup key with
    | none =>
      have := (hl key).2 hd
      simp [this]
    | some value =>
      obtain ⟨raw, -, hraw⟩ := (hl key).1 value hd
      simp [hraw]
  · intro key s hs
    obtain ⟨raw, hraw, hpl⟩ := (hl key).1 _ hs
    rw [encodeValue_str] at hraw
    cases hraw
    exact hpl
  · intro key value hv hns
    obtain ⟨raw, hraw, hpl⟩ := (hl key).1 _ hv
    rw [encodeValue_other env value hns] at hraw
    exact ⟨raw, hraw, hpl⟩

/-! ## The in-memory store client obeys the contract -/

theorem memGet_eq_ok (s : MemStore) (key : NamespacedName) (o : Secret) :
    memGet s key = .ok o ↔ s.find? (fun x => decide (x.key = key)) = some o := by
  unfold memGet
  cases h : s.find? (fun x => decide (x.key = key)) with
  | none => simp
  | some x => simp

theorem find_memReplace_ne (o : Secret) (key : NamespacedName) (hne : key ≠ o.key) :
    ∀ s : MemStore, (memReplace s o).find? (fun x => decide (x.key = key)) =
      s.find? (fun x => decide (x.key = key)) := by
  intro s
  induction s with
  | nil => rfl
  | cons x xs ih =>
    unfold memReplace
    by_cases hx : x.key = o.key
    · have h1 : ¬ o.key = key := fun h => hne h.symm
      have h2 : ¬ x.key = key := fun h => hne (h.symm.trans hx)
      rw [if_pos hx]
      simp [List.find?_cons, h1, h2]
    · rw [if_neg hx]
      by_cases hk : x.key = key
      · simp [List.find?_cons, hk]
      · simp [List.find?_cons, hk, ih]

theorem find_memReplace_self (o : Secret) :
    ∀ (s : MemStore) (x : Secret), s.find? (fun x => decide (x.key = o.key)) = some x →
      (memReplace s o).find? (fun x => decide (x.key = o.key)) = some o := by
  intro s
  induction s with
  | nil => intro x h; simp at h
  | cons y ys ih =>
    intro x h
    unfold memReplace
    by_cases hy : y.key = o.key
    · simp [hy, List.find?_cons]
    · simp only [List.find?_cons, hy, decide_False] at h
      simp only [hy, if_false, List.find?_cons, decide_False]
      exact ih x h

theorem memReplace_same (o : Secret) :
    ∀ s : MemStore, s.find? (fun x => decide (x.key = o.key)) = some o →
      memReplace s o = s := by
  intro s
  induction s with
  | nil => intro h; simp at h
  | cons y ys ih =>
    intro h
    unfold memReplace
    by_cases hy : y.key = o.key
    · simp only [List.find?_cons, hy, decide_True, Option.some.injEq] at h
      simp [hy, h]
    · simp only [List.find?_cons, hy, decide_False] at h
      simp [hy, ih h]

theorem memClient_lawful : Lawful memClient where
  get_key := by
    intro s key o h
    have h2 := (memGet_eq_ok s key o).mp h
    simpa using List.find?_some h2
  update_frame := by
    intro s o key hne
    show memGet (memUpdate s o).1 key = memGet s key
    unfold memUpdate
    cases h : s.find? (fun x => decide (x.key = o.key)) with
    | none => rfl
    | some x =>
      show memGet (memReplace s o) key = memGet s key
      unfold memGet
      rw [find_memReplace_ne o key hne s]
  update_get := by
    intro s o h
    refine ⟨o, ?_, rfl⟩
    have h2 : (memUpdate s o).2 = none := h
    show memGet (memUpdate s o).1 o.key = .ok o
    unfold memUpdate at h2 ⊢
    cases hf : s.find? (fun x => decide (x.key = o.key)) with
    | none => simp [hf] at h2
    | some x =>
      show memGet (memReplace s o) o.key = .ok o
      exact (memGet_eq_ok _ _ _).mpr (find_memReplace_self o s x hf)
  update_same := by
    intro s o h
    have h2 := (memGet_eq_ok s o.key o).mp h
    show memUpdate s o = (s, none)
    unfold memUpdate
    simp [h2, memReplace_same o s h2]

/-! ## Runs of `reconcileBinding` -/

theorem credentialParams_auth_error {σ : Type} (client : Client σ) (valkey : Valkey) (s : σ)
    (err : Error) (h : client.Get s (authKey valkey) = .error err) :
    credentialParams client valkey s = (.error err, [authKey valkey]) := by
  simp [credentialParams, h]

theorem credentialParams_tls_error {σ : Type} (client : Client σ) (valkey : Valkey) (s : σ)
    (authSecret : Secret) (err : Error) (ha : client.Get s (authKey valkey) = .ok authSecret)
    (ht : tlsEnabled valkey = true) (h : client.Get s (tlsKey valkey) = .error err) :
    credentialParams client valkey s = (.error err, [authKey valkey, tlsKey valkey]) := by
  simp [credentialParams, ha, ht, h]

theorem credentialParams_gets {σ : Type} (client : Client σ) (valkey : Valkey) (s : σ)
    (authSecret : Secret) (ha : client.Get s (authKey valkey) = .ok authSecret) :
    (credentialParams client valkey s).2 =
      if tlsEnabled valkey = true then [authKey valkey, tlsKey valkey]
      else [authKey valkey] := by
  unfold credentialParams
  cases ht : tlsEnabled valkey with
  | false => simp [ha]
  | true =>
    cases hg : client.Get s (tlsKey valkey) <;> simp [ha, hg]

theorem credentialParams_congr {σ : Type} (client : Client σ) (valkey : Valkey) (s s2 : σ)
    (ha : client.Get s2 (authKey valkey) = client.Get s (authKey valkey))
    (ht : tlsEnabled valkey = true →
      client.Get s2 (tlsKey valkey) = client.Get s (tlsKey valkey)) :
    credentialParams client valkey s2 = credentialParams client valkey s := by
  unfold credentialParams
  rw [ha]
  cases hen : tlsEnabled valkey with
  | false => rfl
  | true => rw [ht hen]

theorem renderDocument_parse_error {τ ω : Type} (env : Engine τ ω) (valkey : Valkey)
    (params : Params) (w : ω) (err : Error) (h : parseTemplate env valkey = .error err) :
    renderDocument env valkey params w = .error err := by
  simp [renderDocument, h]

theorem renderDocument_execute_error {τ ω : Type} (env : Engine τ ω) (valkey : Valkey)
    (params : Params) (w : ω) (t : τ) (err : Error) (h : parseTemplate env valkey = .ok t)
    (he : env.Execute t params w = .error err) :
    renderDocument env valkey params w = .error err := by
  simp [renderDocument, h, he]

theorem renderDocument_unmarshal {τ ω : Type} (env : Engine τ ω) (valkey : Valkey)
    (params : Params) (w : ω) (t : τ) (buf : String) (h : parseTemplate env valkey = .ok t)
    (he : env.Execute t params w = .ok buf) :
    renderDocument env valkey params w = env.Unmarshal buf := by
  simp [renderDocument, h, he]

theorem run_gets {σ τ ω : Type} (env : Engine τ ω) (client : Client σ) (valkey : Valkey)
    (s : σ) (w : ω) :
    (reconcileBinding env client valkey s w).gets = (credentialParams client valkey s).2 ∨
    (reconcileBinding env client valkey s w).gets =
      (credentialParams client valkey s).2 ++ [bindingKey valkey] := by
  rcases run_cases env client valkey s w with ⟨err, -, -, -, h⟩ | ⟨params, doc, target, payload, hp, hr, hg, he⟩
  · rcases h with h | ⟨params, hp, h⟩
    · left; rw [run_of_cred_error env client valkey s w err h]
    · rcases h with h | ⟨doc, hr, h⟩
      · left; rw [run_of_render_error env client valkey s w params err hp h]
      · rcases h with h | ⟨target, hg, h⟩
        · right; rw [run_of_get_error env client valkey s w params doc err hp hr h]
        · right; rw [run_of_encode_error env client valkey s w params doc target err hp hr hg h]
  · right; rw [run_of_ok env client valkey s w params doc target payload hp hr hg he]

/-- C1: when a stage before the update fails with `err` (the fetch of the password
secret valkey-NAME, the fetch of the TLS secret, the parsing of the template, its
execution, the parsing of the rendered document, the fetch of the target secret, or
the JSON encoding of a value), `reconcileBinding` returns `err`, has issued no update
call (the number of update invocations is zero) and leaves the store it started
with. -/
theorem upstream_failure_no_update {σ τ ω : Type} (env : Engine τ ω) (client : Client σ)
    (valkey : Valkey) (s : σ) (w : ω) (err : Error)
    (h : client.Get s ⟨valkey.Namespace, "valkey-" ++ valkey.Name⟩ = .error err ∨
      (tlsEnabled valkey = true ∧
        (∃ authSecret, client.Get s (authKey valkey) = .ok authSecret) ∧
        client.Get s (tlsKey valkey) = .error err) ∨
      (∃ params, (credentialParams client valkey s).1 = .ok params ∧
        parseTemplate env valkey = .error err) ∨
      (∃ params t, (credentialParams client valkey s).1 = .ok params ∧
        parseTemplate env valkey = .ok t ∧ env.Execute t params w = .error err) ∨
      (∃ params t buf, (credentialParams client valkey s).1 = .ok params ∧
        parseTemplate env valkey = .ok t ∧ env.Execute t params w = .ok buf ∧
        env.Unmarshal buf = .error err) ∨
      (∃ params doc, (credentialParams client valkey s).1 = .ok params ∧
        renderDocument env valkey params w = .ok doc ∧
        client.Get s (bindingKey valkey) = .error err) ∨
      (∃ params doc target, (credentialParams client valkey s).1 = .ok params ∧
        renderDocument env valkey params w = .ok doc ∧
        client.Get s (bindingKey valkey) = .ok target ∧
        encodePayload env doc = .error err)) :
    (reconcileBinding env client valkey s w).err = some err ∧
    (reconcileBinding env client valkey s w).updates = [] ∧
    (reconcileBinding env client valkey s w).updates.length = 0 ∧
    (reconcileBinding env client valkey s w).store = s := by
  have key : ∃ gets, reconcileBinding env client valkey s w = ⟨some err, s, gets, []⟩ := by
    rcases h with h | ⟨ht, ⟨authSecret, ha⟩, h⟩ | ⟨params, hp, h⟩ | ⟨params, t, hp, ht, h⟩ |
      ⟨params, t, buf, hp, ht, hb, h⟩ | ⟨params, doc, hp, hr, h⟩ |
      ⟨params, doc, target, hp, hr, hg, h⟩
    · have hc := credentialParams_auth_error client valkey s err h
      exact ⟨_, run_of_cred_error env client valkey s w err (by rw [hc])⟩
    · have hc := credentialParams_tls_error client valkey s authSecret err ha ht h
      exact ⟨_, run_of_cred_error env client valkey s w err (by rw [hc])⟩
    · exact ⟨_, run_of_render_error env client valkey s w params err hp
        (renderDocument_parse_error env valkey params w err h)⟩
    · exact ⟨_, run_of_render_error env client valkey s w params err hp
        (renderDocument_execute_error env valkey params w t err ht h)⟩
    · exact ⟨_, run_of_render_error env client valkey s w params err hp
        (by rw [renderDocument_unmarshal env valkey params w t buf ht hb, h])⟩
    · exact ⟨_, run_of_get_error env client valkey s w params doc err hp hr h⟩
    · exact ⟨_, run_of_encode_error env client valkey s w params doc target err hp hr hg h⟩
  obtain ⟨gets, hrun⟩ := key
  rw [hrun]
  exact ⟨rfl, rfl, rfl, rfl⟩

/-- C3 (amended): with TLS enabled and the password secret fetched, the second `Get` of
`reconcileBinding` is for the TLS secret, named valkey-NAME-crt when the TLS
configuration has no certManager block and valkey-NAME-tls when it has one, whether or
not that block carries an issuer. -/
theorem tls_secret_name_by_cert_manager {σ τ ω : Type} (env : Engine τ ω) (client : Client σ)
    (valkey : Valkey) (s : σ) (w : ω) (tls : TLSProperties) (authSecret : Secret)
    (htls : valkey.Spec.TLS = some tls) (hen : tls.Enabled = true)
    (hauth : client.Get s ⟨valkey.Namespace, "valkey-" ++ valkey.Name⟩ = .ok authSecret) :
    ∃ rest, (reconcileBinding env client valkey s w).gets =
      ⟨valkey.Namespace, "valkey-" ++ valkey.Name⟩ ::
      ⟨valkey.Namespace,
        if tls.CertManager = none then "valkey-" ++ valkey.Name ++ "-crt"
        else "valkey-" ++ valkey.Name ++ "-tls"⟩ :: rest := by
  have hte : tlsEnabled valkey = true := by simp [tlsEnabled, htls, hen]
  have hname : tlsKey valkey = ⟨valkey.Namespace,
      if tls.CertManager = none then "valkey-" ++ valkey.Name ++ "-crt"
      else "valkey-" ++ valkey.Name ++ "-tls"⟩ := by
    unfold tlsKey tlsSecretName
    rw [htls]
    cases hcm : tls.CertManager <;> simp [hcm]
  have hg := credentialParams_gets client valkey s authSecret hauth
  rw [if_pos hte, hname] at hg
  rcases run_gets env client valkey s w with h | h
  · exact ⟨[], by rw [h, hg]; rfl⟩
  · exact ⟨[bindingKey valkey], by rw [h, hg]; rfl⟩

/-- C7: on a successful run the single update call receives the fetched target secret
with its data replaced by exactly the encoded payload and every other field kept, so
a key of the previous data survives only if the payload has it; the store left is the
one this update produces; and on a store client that obeys the store contract every
object under a key other than the target key reads as before the run. -/
theorem successful_run_overwrites_target {σ τ ω : Type} (env : Engine τ ω) (client : Client σ)
    (valkey : Valkey) (s : σ) (w : ω) (hok : (reconcileBinding env client valkey s w).err = none) :
    ∃ target payload,
      client.Get s (bindingKey valkey) = .ok target ∧
      (∃ params doc, (credentialParams client valkey s).1 = .ok params ∧
        renderDocument env valkey params w = .ok doc ∧ encodePayload env doc = .ok payload) ∧
      (reconcileBinding env client valkey s w).updates = [{ target with Data := payload }] ∧
      (reconcileBinding env client valkey s w).updates.length = 1 ∧
      (reconcileBinding env client valkey s w).store =
        (client.Update s { target with Data := payload }).1 ∧
      (∀ o ∈ (reconcileBinding env client valkey s w).updates,
        o.Data = payload ∧ o.Namespace = target.Namespace ∧ o.Name = target.Name ∧
        o.ResourceVersion = target.ResourceVersion ∧ o.Labels = target.Labels ∧
        ∀ key, key ∉ payload → o.Data.lookup key = none) ∧
      (Lawful client → ∀ key, key ≠ bindingKey valkey →
        client.Get (reconcileBinding env client valkey s w).store key = client.Get s key) := by
  rcases run_cases env client valkey s w with
    ⟨err, herr, -⟩ | ⟨params, doc, target, payload, hp, hr, hg, he⟩
  · rw [herr] at hok
    cases hok
  · have hrun := run_of_ok env client valkey s w params doc target payload hp hr hg he
    refine ⟨target, payload, hg, ⟨params, doc, hp, hr, he⟩, ?_, ?_, ?_, ?_, ?_⟩
    · rw [hrun]
    · rw [hrun]; rfl
    · rw [hrun]
    · rw [hrun]
      intro o ho
      simp only [List.mem_singleton] at ho
      subst ho
      exact ⟨rfl, rfl, rfl, rfl, rfl, fun key hkey => AList.lookup_eq_none.mpr hkey⟩
    · intro hlaw key hkey
      rw [hrun]
      apply hlaw.update_frame
      have hk := hlaw.get_key s (bindingKey valkey) target hg
      intro h
      apply hkey
      rw [h, ← hk]
      rfl

/-- C8: the target secret is looked up in the namespace of the deployment, under
binding.secretName when a binding block with a non-empty secretName is configured and
under valkey-NAME-binding otherwise; once the document is rendered this is the last
`Get` of the run, and an updated object is the object that `Get` returned (stored
under that key when the store client obeys the store contract). When that
`Get` fails the run fails, issues no update and leaves the store as it was (nothing is
created), and once the document is rendered the error returned is the error of the
`Get` itself. -/
theorem target_secret_resolution {σ τ ω : Type} (env : Engine τ ω) (client : Client σ)
    (valkey : Valkey) (s : σ) (w : ω) :
    bindingKey valkey = ⟨valkey.Namespace,
      match valkey.Spec.Binding with
      | some binding =>
        if binding.SecretName = "" then "valkey-" ++ valkey.Name ++ "-binding"
        else binding.SecretName
      | none => "valkey-" ++ valkey.Name ++ "-binding"⟩ ∧
    (∀ params doc, (credentialParams client valkey s).1 = .ok params →
      renderDocument env valkey params w = .ok doc →
      (reconcileBinding env client valkey s w).gets.getLast? = some (bindingKey valkey)) ∧
    (∀ o ∈ (reconcileBinding env client valkey s w).updates,
      ∃ target, client.Get s (bindingKey valkey) = .ok target ∧
        o.Namespace = target.Namespace ∧ o.Name = target.Name ∧
        (Lawful client → o.key = bindingKey valkey)) ∧
    (∀ err, client.Get s (bindingKey valkey) = .error err →
      (reconcileBinding env client valkey s w).err ≠ none ∧
      (reconcileBinding env client valkey s w).updates = [] ∧
      (reconcileBinding env client valkey s w).store = s ∧
      (∀ params doc, (credentialParams client valkey s).1 = .ok params →
        renderDocument env valkey params w = .ok doc →
        (reconcileBinding env client valkey s w).err = some err)) := by
  refine ⟨?_, ?_, ?_, ?_⟩
  · unfold bindingKey bindingSecretName
    cases valkey.Spec.Binding with
    | none => rfl
    | some binding =>
      by_cases hb : binding.SecretName = "" <;> simp [hb]
  · intro params doc hp hr
    cases hg : client.Get s (bindingKey valkey) with
    | error err =>
      rw [run_of_get_error env client valkey s w params doc err hp hr hg]
      simp
    | ok target =>
      cases he : encodePayload env doc with
      | error err =>
        rw [run_of_encode_error env client valkey s w params doc target err hp hr hg he]
        simp
      | ok payload =>
        rw [run_of_ok env client valkey s w params doc target payload hp hr hg he]
        simp
  · intro o ho
    rcases run_cases env client valkey s w with
      ⟨err, -, -, hup, -⟩ | ⟨params, doc, target, payload, hp, hr, hg, he⟩
    · rw [hup] at ho
      cases ho
    · rw [run_of_ok env client valkey s w params doc target payload hp hr hg he] at ho
      simp only [List.mem_singleton] at ho
      subst ho
      exact ⟨target, hg, rfl, rfl, fun hlaw => hlaw.get_key s (bindingKey valkey) target hg⟩
  · intro err hget
    rcases run_cases env client valkey s w with
      ⟨err2, herr, hst, hup, -⟩ | ⟨params, doc, target, payload, hp, hr, hg, he⟩
    · refine ⟨by rw [herr]; simp, hup, hst, ?_⟩
      intro params doc hp hr
      rw [run_of_get_error env client valkey s w params doc err hp hr hget]
    · rw [hget] at hg
      cases hg

/-- C9 (amended): after a successful credential and TLS stage, if TLS is enabled (a TLS
block that is present and enabled) the parameters have tlsEnabled = true and caData
equal to the bytes of the ca.crt field of the fetched TLS secret read as a string, which
is the empty string when that field is empty or absent; if TLS is not enabled the
parameters have neither a tlsEnabled nor a caData key and the only secret fetched
before the target secret is the password secret. -/
theorem tls_params {σ τ ω : Type} (env : Engine τ ω) (client : Client σ) (valkey : Valkey)
    (s : σ) (w : ω) (params : Params) (h : (credentialParams client valkey s).1 = .ok params) :
    (tlsEnabled valkey = true ↔
      ∃ tls, valkey.Spec.TLS = some tls ∧ tls.Enabled = true) ∧
    (if tlsEnabled valkey = true then
      params.lookup "tlsEnabled" = some (.bool true) ∧
      ∃ tlsSecret, client.Get s (tlsKey valkey) = .ok tlsSecret ∧
        params.lookup "caData" =
          some (.str ((tlsSecret.Data.lookup "ca.crt").getD "")) ∧
        (∀ bytes, tlsSecret.Data.lookup "ca.crt" = some bytes →
          params.lookup "caData" = some (.str bytes))
    else
      "tlsEnabled" ∉ params ∧ "caData" ∉ params ∧
      (credentialParams client valkey s).2 = [authKey valkey] ∧
      ∀ key ∈ (reconcileBinding env client valkey s w).gets,
        key = authKey valkey ∨ key = bindingKey valkey) := by
  refine ⟨?_, ?_⟩
  · unfold tlsEnabled
    cases valkey.Spec.TLS <;> simp
  · obtain ⟨authSecret, hauth, hc | hc⟩ := credentialParams_ok client valkey s params h
    · obtain ⟨hte, rfl, hgets⟩ := hc
      rw [if_neg (by simp [hte])]
      refine ⟨?_, ?_, hgets, ?_⟩
      · rw [← AList.lookup_eq_none, AList.lookup_insert_ne (by decide)]
        cases hm : sentinelEnabled valkey
        · rw [topologyParams_primary valkey hm]
          simp [-AList.insert_empty, AList.lookup_insert_ne]
        · rw [topologyParams_sentinel valkey hm]
          simp [-AList.insert_empty, AList.lookup_insert_ne]
      · rw [← AList.lookup_eq_none, AList.lookup_insert_ne (by decide)]
        cases hm : sentinelEnabled valkey
        · rw [topologyParams_primary valkey hm]
          simp [-AList.insert_empty, AList.lookup_insert_ne]
        · rw [topologyParams_sentinel valkey hm]
          simp [-AList.insert_empty, AList.lookup_insert_ne]
      · intro key hkey
        rcases run_gets env client valkey s w with hg | hg
        · rw [hg, hgets] at hkey
          left
          simpa using hkey
        · rw [hg, hgets] at hkey
          simpa using hkey
    · obtain ⟨hte, tlsSecret, hget, rfl, -⟩ := hc
      rw [if_pos hte]
      refine ⟨?_, tlsSecret, hget, ?_, ?_⟩
      · rw [AList.lookup_insert_ne (by decide), AList.lookup_insert]
      · rw [AList.lookup_insert]
        rfl
      · intro bytes hb
        rw [AList.lookup_insert, field, hb]
        rfl

theorem renderDocument_congr {τ ω : Type} (env : Engine τ ω) (valkey : Valkey)
    (params : Params) (w1 w2 : ω)
    (h : ∀ t, parseTemplate env valkey = .ok t →
      env.Execute t params w2 = env.Execute t params w1) :
    renderDocument env valkey params w2 = renderDocument env valkey params w1 := by
  unfold renderDocument
  rcases except_cases (parseTemplate env valkey) with ⟨err, hp⟩ | ⟨t, hp⟩
  · rw [hp]
  · rw [hp]
    simp only
    rw [h t hp]

/-- C10 (amended): on a store client that obeys the store contract, when a run succeeds,
the password secret and (with TLS enabled) the TLS secret read the same in the store it
leaves, and the template renders in the second run the text it rendered in the first,
a second run on that store with the same descriptor succeeds, issues its one update
with the same payload as the first, and leaves the store as the first run left it. -/
theorem second_run_idempotent {σ τ ω : Type} (env : Engine τ ω) (client : Client σ)
    (valkey : Valkey) (s : σ) (w1 w2 : ω) (hlaw : Lawful client)
    (hok : (reconcileBinding env client valkey s w1).err = none)
    (hpw : client.Get (reconcileBinding env client valkey s w1).store (authKey valkey) =
      client.Get s (authKey valkey))
    (htls : tlsEnabled valkey = true →
      client.Get (reconcileBinding env client valkey s w1).store (tlsKey valkey) =
        client.Get s (tlsKey valkey))
    (hsame : ∀ t params, parseTemplate env valkey = .ok t →
      (credentialParams client valkey s).1 = .ok params →
      env.Execute t params w2 = env.Execute t params w1) :
    (reconcileBinding env client valkey
      (reconcileBinding env client valkey s w1).store w2).err = none ∧
    (reconcileBinding env client valkey
        (reconcileBinding env client valkey s w1).store w2).updates.map (fun o => o.Data) =
      (reconcileBinding env client valkey s w1).updates.map (fun o => o.Data) ∧
    (reconcileBinding env client valkey
        (reconcileBinding env client valkey s w1).store w2).updates.length = 1 ∧
    (reconcileBinding env client valkey
      (reconcileBinding env client valkey s w1).store w2).store
      = (reconcileBinding env client valkey s w1).store := by
  rcases run_cases env client valkey s w1 with
    ⟨err, herr, -⟩ | ⟨params, doc, target, payload, hp, hr, hg, he⟩
  · rw [herr] at hok
    cases hok
  · have hrun := run_of_ok env client valkey s w1 params doc target payload hp hr hg he
    have hcred := credentialParams_congr client valkey s _ hpw htls
    rw [hrun] at hok
    simp only at hok
    have hkey : ({ target with Data := payload } : Secret).key = bindingKey valkey :=
      hlaw.get_key s (bindingKey valkey) target hg
    obtain ⟨stored, hstored, hdata⟩ := hlaw.update_get s { target with Data := payload } hok
    rw [hkey] at hstored
    have hsame2 : ({ stored with Data := payload } : Secret) = stored := by
      cases stored
      simp only at hdata
      subst hdata
      rfl
    have hskey : stored.key = bindingKey valkey :=
      hlaw.get_key _ (bindingKey valkey) stored hstored
    have hup := hlaw.update_same (client.Update s { target with Data := payload }).1 stored
      (by rw [hskey]; exact hstored)
    have hstore : (reconcileBinding env client valkey s w1).store =
        (client.Update s { target with Data := payload }).1 := by rw [hrun]
    have hp2 : (credentialParams client valkey
        (reconcileBinding env client valkey s w1).store).1 = .ok params := by
      rw [hcred, hp]
    have hr2 : renderDocument env valkey params w2 = .ok doc := by
      rw [renderDocument_congr env valkey params w1 w2 (fun t ht => hsame t params ht hp), hr]
    have hg2 : client.Get (reconcileBinding env client valkey s w1).store (bindingKey valkey)
        = .ok stored := by rw [hstore]; exact hstored
    have hrun2 := run_of_ok env client valkey (reconcileBinding env client valkey s w1).store
      w2 params doc stored payload hp2 hr2 hg2 he
    rw [hsame2] at hrun2
    rw [hrun2]
    rw [hstore, hup]
    refine ⟨rfl, ?_, rfl, rfl⟩
    rw [hrun]
    simp [hdata]

/-! ## Concrete runs -/

/-- Witness of C1: with an empty store the fetch of the password secret of `cache1`
fails with NotFound; the run returns that error, issues no update and leaves the
store empty. On `store1` the custom template of `cache1Unclosed` does not parse; the
run returns the parse error, issues no update and leaves `store1`. -/
theorem upstream_failure_no_update_witness :
    (memClient.Get [] ⟨"ns1", "valkey-cache1"⟩ = .error (.notFound "ns1" "valkey-cache1") ∧
      (reconcileBinding demoEngine memClient cache1 [] "1700000000").err
        = some (.notFound "ns1" "valkey-cache1") ∧
      (reconcileBinding demoEngine memClient cache1 [] "1700000000").updates = [] ∧
      (reconcileBinding demoEngine memClient cache1 [] "1700000000").updates.length = 0 ∧
      (reconcileBinding demoEngine memClient cache1 [] "1700000000").store = []) ∧
    (parseTemplate demoEngine cache1Unclosed = .error (.other "template: unclosed action") ∧
      (reconcileBinding demoEngine memClient cache1Unclosed store1 "1700000000").err
        = some (.other "template: unclosed action") ∧
      (reconcileBinding demoEngine memClient cache1Unclosed store1 "1700000000").updates = [] ∧
      (reconcileBinding demoEngine memClient cache1Unclosed store1 "1700000000").updates.length = 0 ∧
      (reconcileBinding demoEngine memClient cache1Unclosed store1 "1700000000").store = store1) :=
  ⟨⟨rfl, upstream_failure_no_update demoEngine memClient cache1 [] "1700000000"
      (.notFound "ns1" "valkey-cache1") (Or.inl rfl)⟩,
    ⟨rfl, upstream_failure_no_update demoEngine memClient cache1Unclosed store1 "1700000000"
      (.other "template: unclosed action")
      (Or.inr (Or.inr (Or.inl
        ⟨(topologyParams cache1Unclosed).insert "password" (.str "abc"), rfl, rfl⟩)))⟩⟩

/-- Witness of C2, the encoding scenario: the document with `password` the string abc
and `count` the number 3 encodes, under the reference JSON encoder, to the payload with
`password` the bytes abc (unquoted) and `count` the bytes 3, and no other key. -/
theorem encodePayload_spec_witness :
    ∃ payload, encodePayload demoEngine scenarioDoc = .ok payload ∧
      payload.lookup "password" = some "abc" ∧ payload.lookup "count" = some "3" ∧
      ∀ key, key ∈ payload ↔ key ∈ scenarioDoc := by
  have hm : ∀ key value, scenarioDoc.lookup key = some value → (∀ s, value ≠ .str s) →
      ∃ raw, demoEngine.Marshal value = .ok raw := by
    intro key value h hns
    by_cases h1 : key = "password"
    · subst h1
      have h2 : scenarioDoc.lookup "password" = some (.str "abc") := rfl
      rw [h2] at h
      cases h
      exact absurd rfl (hns "abc")
    · by_cases h2 : key = "count"
      · subst h2
        have h3 : scenarioDoc.lookup "count" = some (.num 3) := rfl
        rw [h3] at h
        cases h
        exact ⟨"3", rfl⟩
      · unfold scenarioDoc at h
        rw [AList.lookup_insert_ne h1, AList.lookup_insert_ne h2] at h
        simp at h
  obtain ⟨payload, hp, hkeys, hstr, hoth⟩ := encodePayload_spec demoEngine scenarioDoc hm
  refine ⟨payload, hp, hstr "password" "abc" rfl, ?_, hkeys⟩
  obtain ⟨raw, hraw, hl⟩ := hoth "count" (.num 3) rfl (fun s h => by cases h)
  have h3 : demoEngine.Marshal (.num 3) = .ok "3" := rfl
  rw [h3] at hraw
  cases hraw
  exact hl

/-- Counterexample to C3: `cache1CertManager` enables TLS with a certManager block that
carries no issuer, so no issuer reference is configured; the TLS secret its run fetches
is valkey-cache1-tls, and valkey-cache1-crt is not fetched. -/
theorem tls_secret_name_counterexample :
    cache1CertManager.Spec.TLS = some ⟨true, some ⟨none⟩⟩ ∧
    (reconcileBinding demoEngine memClient cache1CertManager store1 "1700000000").gets =
      [⟨"ns1", "valkey-cache1"⟩, ⟨"ns1", "valkey-cache1-tls"⟩,
        ⟨"ns1", "valkey-cache1-binding"⟩] ∧
    (⟨"ns1", "valkey-cache1-crt"⟩ : NamespacedName) ∉
      (reconcileBinding demoEngine memClient cache1CertManager store1 "1700000000").gets := by
  have h : (reconcileBinding demoEngine memClient cache1CertManager store1 "1700000000").gets =
      [⟨"ns1", "valkey-cache1"⟩, ⟨"ns1", "valkey-cache1-tls"⟩,
        ⟨"ns1", "valkey-cache1-binding"⟩] := rfl
  refine ⟨rfl, h, ?_⟩
  rw [h]
  decide

/-- Witness of C3 as amended: for `cache1SelfSigned` (no certManager block) the second
fetch is valkey-cache1-crt. -/
theorem tls_secret_name_by_cert_manager_witness :
    cache1SelfSigned.Spec.TLS = some ⟨true, none⟩ ∧
    memClient.Get store1 ⟨"ns1", "valkey-cache1"⟩ =
      .ok (mkSecret "ns1" "valkey-cache1" [("valkey-password", "abc")]) ∧
    ∃ rest, (reconcileBinding demoEngine memClient cache1SelfSigned store1 "1700000000").gets =
      ⟨"ns1", "valkey-cache1"⟩ :: ⟨"ns1", "valkey-cache1-crt"⟩ :: rest :=
  ⟨rfl, rfl, tls_secret_name_by_cert_manager demoEngine memClient cache1SelfSigned store1
    "1700000000"
    ⟨true, none⟩ (mkSecret "ns1" "valkey-cache1" [("valkey-password", "abc")]) rfl rfl rfl⟩

/-- Witness of C4: after the credential stage of `cache1Sentinel` on `store1` the map
has sentinelEnabled = true and neither primaryHost nor replicaHost. -/
theorem parameter_groups_exclusive_witness :
    (credentialParams memClient cache1Sentinel store1).1 =
      .ok ((topologyParams cache1Sentinel).insert "password" (.str "abc")) ∧
    ((topologyParams cache1Sentinel).insert "password" (.str "abc")).lookup
      "sentinelEnabled" = some (.bool true) ∧
    "primaryHost" ∉ (topologyParams cache1Sentinel).insert "password" (.str "abc") ∧
    "replicaHost" ∉ (topologyParams cache1Sentinel).insert "password" (.str "abc") := by
  have h := (parameter_groups_exclusive memClient cache1Sentinel store1
    ((topologyParams cache1Sentinel).insert "password" (.str "abc")) (Or.inr rfl)).2.1
  rw [if_pos (show sentinelEnabled cache1Sentinel = true from rfl)] at h
  exact ⟨rfl, h⟩

/-- Witness of C5, the concrete scenario: name cache1, namespace ns1, cluster domain
unset, sentinel disabled. -/
theorem primary_replica_params_witness :
    sentinelEnabled cache1 = false ∧
    (topologyParams cache1).lookup "primaryHost"
      = some (.str "valkey-cache1-primary.ns1.svc.cluster.local") ∧
    (topologyParams cache1).lookup "primaryPort" = some (.int 6379) ∧
    (topologyParams cache1).lookup "replicaHost"
      = some (.str "valkey-cache1-replicas.ns1.svc.cluster.local") ∧
    (topologyParams cache1).lookup "replicaPort" = some (.int 6379) :=
  ⟨rfl, primary_replica_params memClient cache1 store1 (topologyParams cache1) rfl
    (Or.inl rfl)⟩

/-- Witness of C6, the concrete scenario: name cache1, namespace ns1, cluster domain
unset, sentinel enabled. -/
theorem sentinel_params_witness :
    sentinelEnabled cache1Sentinel = true ∧
    (topologyParams cache1Sentinel).lookup "sentinelEnabled" = some (.bool true) ∧
    (topologyParams cache1Sentinel).lookup "host"
      = some (.str "valkey-cache1.ns1.svc.cluster.local") ∧
    (topologyParams cache1Sentinel).lookup "sentinelHost"
      = (topologyParams cache1Sentinel).lookup "host" ∧
    (topologyParams cache1Sentinel).lookup "port" = some (.int 6379) ∧
    (topologyParams cache1Sentinel).lookup "sentinelPort" = some (.int 26379) ∧
    (topologyParams cache1Sentinel).lookup "primaryName" = some (.str "myprimary") :=
  ⟨rfl, sentinel_params memClient cache1Sentinel store1 (topologyParams cache1Sentinel) rfl
    (Or.inl rfl)⟩

/-- Witness of C7: the run of `cache1` on `store1` succeeds; its one update carries the
payload in place of the stale data, and the password secret reads as before. -/
theorem successful_run_overwrites_target_witness :
    (reconcileBinding demoEngine memClient cache1 store1 "1700000000").err = none ∧
    (reconcileBinding demoEngine memClient cache1 store1 "1700000000").updates.length = 1 ∧
    (∀ o ∈ (reconcileBinding demoEngine memClient cache1 store1 "1700000000").updates,
      o.Data.lookup "stale" = none ∧ o.Data.lookup "password" = some "abc") ∧
    memClient.Get (reconcileBinding demoEngine memClient cache1 store1 "1700000000").store
      ⟨"ns1", "valkey-cache1"⟩ = memClient.Get store1 ⟨"ns1", "valkey-cache1"⟩ := by
  obtain ⟨target, payload, -, ⟨params, doc, -, -, -⟩, hup, hlen, -, -, hframe⟩ :=
    successful_run_overwrites_target demoEngine memClient cache1 store1 "1700000000" rfl
  refine ⟨rfl, hlen, ?_, hframe memClient_lawful ⟨"ns1", "valkey-cache1"⟩ (by decide)⟩
  intro o ho
  have h : (reconcileBinding demoEngine memClient cache1 store1 "1700000000").updates =
      [mkSecret "ns1" "valkey-cache1-binding" [("count", "3"), ("password", "abc")]] := rfl
  rw [h] at ho
  simp only [List.mem_singleton] at ho
  subst ho
  exact ⟨rfl, rfl⟩

/-- Witness of C8: `cache1Named` overrides the secret name with app-binding, which
`store1` does not hold; the run fails with the NotFound of that `Get`, issues no
update and leaves the store as it was. -/
theorem target_secret_resolution_witness :
    bindingKey cache1Named = ⟨"ns1", "app-binding"⟩ ∧
    bindingKey cache1 = ⟨"ns1", "valkey-cache1-binding"⟩ ∧
    (reconcileBinding demoEngine memClient cache1Named store1 "1700000000").err =
      some (.notFound "ns1" "app-binding") ∧
    (reconcileBinding demoEngine memClient cache1Named store1 "1700000000").updates = [] ∧
    (reconcileBinding demoEngine memClient cache1Named store1 "1700000000").store = store1 := by
  obtain ⟨-, -, -, h⟩ :=
    target_secret_resolution demoEngine memClient cache1Named store1 "1700000000"
  obtain ⟨-, hup, hst, herr⟩ := h (.notFound "ns1" "app-binding") rfl
  exact ⟨rfl, rfl,
    herr ((topologyParams cache1Named).insert "password" (.str "abc")) scenarioDoc rfl rfl,
    hup, hst⟩

/-- Counterexample to C9: `cache1SelfSigned` enables TLS; its TLS secret in `store1` is
fetched and has a ca.crt field, which is empty; the credential stage succeeds and
caData is the empty string. -/
theorem ca_data_counterexample :
    tlsEnabled cache1SelfSigned = true ∧
    ∃ tlsSecret params,
      memClient.Get store1 (tlsKey cache1SelfSigned) = .ok tlsSecret ∧
      "ca.crt" ∈ tlsSecret.Data ∧
      (credentialParams memClient cache1SelfSigned store1).1 = .ok params ∧
      params.lookup "caData" = some (.str "") := by
  refine ⟨rfl, mkSecret "ns1" "valkey-cache1-crt" [("ca.crt", "")], _, rfl, ?_, rfl, rfl⟩
  rw [← AList.lookup_isSome]
  rfl

/-- Witness of C9 as amended: for `cache1CertManager` on `store1` the parameters have
tlsEnabled = true and caData equal to the ca.crt bytes of valkey-cache1-tls. -/
theorem tls_params_witness :
    ∃ params, (credentialParams memClient cache1CertManager store1).1 = .ok params ∧
      params.lookup "tlsEnabled" = some (.bool true) ∧
      params.lookup "caData" = some (.str "PEM") := by
  have hp : (credentialParams memClient cache1CertManager store1).1 =
      .ok ((((topologyParams cache1CertManager).insert "password" (.str "abc")).insert
        "tlsEnabled" (.bool true)).insert "caData" (.str "PEM")) := rfl
  have h := (tls_params demoEngine memClient cache1CertManager store1 "1700000000" _ hp).2
  rw [if_pos (show tlsEnabled cache1CertManager = true from rfl)] at h
  obtain ⟨h1, tlsSecret, hget, -, hca⟩ := h
  have hg : memClient.Get store1 (tlsKey cache1CertManager) =
      .ok (mkSecret "ns1" "valkey-cache1-tls" [("ca.crt", "PEM")]) := rfl
  rw [hg] at hget
  cases hget
  exact ⟨_, hp, h1, hca "PEM" rfl⟩

/-- Counterexample to C10. First part: `cache1Clock` carries a custom template that
renders the clock; on the in-memory store client its run on `store1` at clock
1700000000 succeeds and leaves the password secret as it was (TLS is off), the second
run at clock 1700000001 on the store left succeeds too, yet the first payload has
password = 1700000000 and the second password = 1700000001, and the store changes
again. Second part: `cache1` with the default template on the store client that stamps
resource versions; both runs succeed with the same payload and the password secret
unchanged, yet the second run changes the store left by the first. -/
theorem second_run_counterexample :
    ((reconcileBinding demoEngine memClient cache1Clock store1 "1700000000").err = none ∧
      tlsEnabled cache1Clock = false ∧
      memClient.Get (reconcileBinding demoEngine memClient cache1Clock store1 "1700000000").store
        (authKey cache1Clock) = memClient.Get store1 (authKey cache1Clock) ∧
      (reconcileBinding demoEngine memClient cache1Clock
        (reconcileBinding demoEngine memClient cache1Clock store1 "1700000000").store "1700000001").err
        = none ∧
      (reconcileBinding demoEngine memClient cache1Clock store1 "1700000000").updates.map
        (fun o => o.Data.lookup "password") = [some "1700000000"] ∧
      (reconcileBinding demoEngine memClient cache1Clock
        (reconcileBinding demoEngine memClient cache1Clock store1 "1700000000").store "1700000001").updates.map
        (fun o => o.Data.lookup "password") = [some "1700000001"] ∧
      (reconcileBinding demoEngine memClient cache1Clock
        (reconcileBinding demoEngine memClient cache1Clock store1 "1700000000").store "1700000001").updates.map
          (fun o => o.Data) ≠
        (reconcileBinding demoEngine memClient cache1Clock store1 "1700000000").updates.map
          (fun o => o.Data) ∧
      (reconcileBinding demoEngine memClient cache1Clock
        (reconcileBinding demoEngine memClient cache1Clock store1 "1700000000").store "1700000001").store ≠
        (reconcileBinding demoEngine memClient cache1Clock store1 "1700000000").store) ∧
    ((reconcileBinding demoEngine stampClient cache1 store1 "1700000000").err = none ∧
      stampClient.Get (reconcileBinding demoEngine stampClient cache1 store1 "1700000000").store
        (authKey cache1) = stampClient.Get store1 (authKey cache1) ∧
      (reconcileBinding demoEngine stampClient cache1
        (reconcileBinding demoEngine stampClient cache1 store1 "1700000000").store "1700000000").err
        = none ∧
      (reconcileBinding demoEngine stampClient cache1
        (reconcileBinding demoEngine stampClient cache1 store1 "1700000000").store "1700000000").updates.map
          (fun o => o.Data) =
        (reconcileBinding demoEngine stampClient cache1 store1 "1700000000").updates.map
          (fun o => o.Data) ∧
      (reconcileBinding demoEngine stampClient cache1 store1 "1700000000").store.map
        (fun o => o.ResourceVersion) = ["1", "1", "1", "1+", "1"] ∧
      (reconcileBinding demoEngine stampClient cache1
        (reconcileBinding demoEngine stampClient cache1 store1 "1700000000").store "1700000000").store.map
        (fun o => o.ResourceVersion) = ["1", "1", "1", "1++", "1"] ∧
      (reconcileBinding demoEngine stampClient cache1
        (reconcileBinding demoEngine stampClient cache1 store1 "1700000000").store "1700000000").store ≠
        (reconcileBinding demoEngine stampClient cache1 store1 "1700000000").store) := by
  refine ⟨⟨rfl, rfl, rfl, rfl, rfl, rfl, ?_, ?_⟩, ⟨rfl, rfl, rfl, rfl, rfl, rfl, ?_⟩⟩
  · intro h
    have h2 := congrArg (List.map (AList.lookup "password")) h
    have e1 : List.map (AList.lookup "password")
        ((reconcileBinding demoEngine memClient cache1Clock
          (reconcileBinding demoEngine memClient cache1Clock store1 "1700000000").store
            "1700000001").updates.map (fun o => o.Data)) = [some "1700000001"] := rfl
    have e2 : List.map (AList.lookup "password")
        ((reconcileBinding demoEngine memClient cache1Clock store1 "1700000000").updates.map
          (fun o => o.Data)) = [some "1700000000"] := rfl
    rw [e1, e2] at h2
    revert h2
    decide
  · intro h
    have h2 := congrArg
      (List.map (fun o : Secret => o.Data.lookup "password")) h
    have e1 : List.map (fun o : Secret => o.Data.lookup "password")
        (reconcileBinding demoEngine memClient cache1Clock
          (reconcileBinding demoEngine memClient cache1Clock store1 "1700000000").store
            "1700000001").store = [none, none, none, some "1700000001", none] := rfl
    have e2 : List.map (fun o : Secret => o.Data.lookup "password")
        (reconcileBinding demoEngine memClient cache1Clock store1 "1700000000").store
        = [none, none, none, some "1700000000", none] := rfl
    rw [e1, e2] at h2
    revert h2
    decide
  · intro h
    have h2 := congrArg (List.map (fun o : Secret => o.ResourceVersion)) h
    have e1 : List.map (fun o : Secret => o.ResourceVersion)
        (reconcileBinding demoEngine stampClient cache1
          (reconcileBinding demoEngine stampClient cache1 store1 "1700000000").store "1700000000").store
        = ["1", "1", "1", "1++", "1"] := rfl
    have e2 : List.map (fun o : Secret => o.ResourceVersion)
        (reconcileBinding demoEngine stampClient cache1 store1 "1700000000").store
        = ["1", "1", "1", "1+", "1"] := rfl
    rw [e1, e2] at h2
    revert h2
    decide

/-- Witness of C10 as amended: the default template of `cache1` does not read the clock;
a second run at clock 1700000001 on the store left by the first run at clock
1700000000 on `store1` succeeds, updates with the same payload and leaves that store as
it is. -/
theorem second_run_idempotent_witness :
    (reconcileBinding demoEngine memClient cache1 store1 "1700000000").err = none ∧
    (reconcileBinding demoEngine memClient cache1
      (reconcileBinding demoEngine memClient cache1 store1 "1700000000").store "1700000001").err = none ∧
    (reconcileBinding demoEngine memClient cache1
        (reconcileBinding demoEngine memClient cache1 store1 "1700000000").store "1700000001").updates.map
          (fun o => o.Data) =
      (reconcileBinding demoEngine memClient cache1 store1 "1700000000").updates.map
        (fun o => o.Data) ∧
    (reconcileBinding demoEngine memClient cache1
        (reconcileBinding demoEngine memClient cache1 store1 "1700000000").store "1700000001").updates.length
      = 1 ∧
    (reconcileBinding demoEngine memClient cache1
      (reconcileBinding demoEngine memClient cache1 store1 "1700000000").store "1700000001").store =
      (reconcileBinding demoEngine memClient cache1 store1 "1700000000").store := by
  have hsame : ∀ t params, parseTemplate demoEngine cache1 = .ok t →
      (credentialParams memClient cache1 store1).1 = .ok params →
      demoEngine.Execute t params "1700000001" = demoEngine.Execute t params "1700000000" := by
    intro t params ht _
    have h0 : parseTemplate demoEngine cache1 = .ok "binding.yaml" := rfl
    rw [h0] at ht
    cases ht
    rfl
  exact ⟨rfl, second_run_idempotent demoEngine memClient cache1 store1 "1700000000" "1700000001"
    memClient_lawful rfl rfl (fun _ => rfl) hsame⟩

end ValkeyBinding
